import Mathlib

/-!
Shallow embedding of the bookstore-effect service layer
(`src/services/book-service.ts`, `src/services/author-service.ts`,
`src/repositories/book-repository.ts`, `src/repositories/author-repository.ts`).

The persistent store (two MongoDB collections) is modelled as a pair of lists
of documents held in a `DB` record; every service operation becomes a pure
function `DB → Except String (α × DB)` (an `Effect` that can fail with an
`Error` message is `Except String`; a failed effect performs no writes, so an
`Except.error` result carries no successor state — the caller keeps the old
`DB`).  JavaScript numbers used for `stock` are modelled as `Int` (the spec
calls stock an integer and the code only adds integers to it); JavaScript
`String.prototype.toLowerCase` / `includes` are modelled character-wise over
the string's character list.  Mongo `RegExp(name, "i")` field queries are
modelled as case-insensitive literal substring containment, which is their
behaviour for metacharacter-free patterns.  Fields of the TypeScript models
that no service rule reads (timestamps, website, social links, profile image,
published date, price as float) are carried only where a claim needs them.
-/

namespace Bookstore

/-- A character-list based substring test: `sublistOf sub hay` is `true` iff
`sub` occurs contiguously inside `hay`.  This is the model of JavaScript
`hay.includes(sub)`. -/
def sublistOf (sub : List Char) : List Char → Bool
  | [] => sub.isEmpty
  | c :: t => sub.isPrefixOf (c :: t) || sublistOf sub t

/-- Model of JavaScript `hay.includes(needle)`. -/
def strIncludes (hay needle : String) : Bool :=
  sublistOf needle.data hay.data

/-- Model of JavaScript `s.toLowerCase()`: character-wise lowering. -/
def lowerStr (s : String) : String :=
  ⟨s.data.map Char.toLower⟩

/-- Author document (`src/models/author.ts`): `_id`, `firstName`, `lastName`,
`fullName` required; `biography` and `nationality` optional.  The remaining
optional presentation fields (birthDate, website, socialLinks,
profileImageUrl, timestamps) are never read by any service rule and are
omitted from the embedding. -/
structure Author where
  _id : String
  firstName : String
  lastName : String
  fullName : String
  biography : Option String := none
  nationality : Option String := none
deriving DecidableEq, Repr

/-- Book document (`src/models/book.ts`): title, authorIds, isbn, price,
stock, genre required; description optional; publishedDate and timestamps
omitted (never read by a service rule). -/
structure Book where
  _id : String
  title : String
  authorIds : List String
  isbn : String
  price : Int
  stock : Int
  genre : String
  description : Option String := none
deriving DecidableEq, Repr

/-- The two MongoDB collections, in insertion order. -/
structure DB where
  authors : List Author
  books : List Book
deriving DecidableEq, Repr

/-- `CreateAuthorRequest` (`src/models/author.ts`), restricted to the fields
the services read. -/
structure CreateAuthorRequest where
  firstName : String
  lastName : String
  fullName : String
  biography : Option String := none
  nationality : Option String := none
deriving DecidableEq, Repr

/-- `CreateBookRequest` (`src/models/book.ts`). -/
structure CreateBookRequest where
  title : String
  authorIds : List String
  isbn : String
  price : Int
  stock : Int
  genre : String
  description : Option String := none
deriving DecidableEq, Repr

/-- `UpdateBookRequest` (`src/models/book.ts`): every field optional
(merge-patch). -/
structure UpdateBookRequest where
  title : Option String := none
  authorIds : Option (List String) := none
  isbn : Option String := none
  price : Option Int := none
  stock : Option Int := none
  genre : Option String := none
  description : Option String := none
deriving DecidableEq, Repr

/-- Mongo `$set` of the present patch fields onto a book document
(`book-repository.ts`, `update`). -/
def applyBookPatch (b : Book) (p : UpdateBookRequest) : Book :=
  { b with
    title := p.title.getD b.title
    authorIds := p.authorIds.getD b.authorIds
    isbn := p.isbn.getD b.isbn
    price := p.price.getD b.price
    stock := p.stock.getD b.stock
    genre := p.genre.getD b.genre
    description := match p.description with
      | some d => some d
      | none => b.description }

/-- `bookRepository.findById` / Mongo `findOne({_id})`: the first (unique)
document with the given id. -/
def findBook (db : DB) (id : String) : Option Book :=
  db.books.find? (fun b => b._id == id)

/-- Replace the first document whose `_id` matches (Mongo `findOneAndUpdate`
touches exactly one document). -/
def setBook (books : List Book) (id : String) (b2 : Book) : List Book :=
  match books with
  | [] => []
  | b :: rest => if b._id == id then b2 :: rest else b :: setBook rest id b2

/-- `bookRepository.update` (`book-repository.ts` lines 74–91):
`findOneAndUpdate({_id}, {$set: patch}, returnDocument after)`; `none` when
the id does not exist. -/
def bookRepoUpdate (db : DB) (id : String) (p : UpdateBookRequest) :
    Option Book × DB :=
  match findBook db id with
  | none => (none, db)
  | some b =>
    let b2 := applyBookPatch b p
    (some b2, { db with books := setBook db.books id b2 })

/-- `authorService.validateAuthorExists` (`author-service.ts` lines 107–108):
`findById` mapped through `Option.isSome`. -/
def validateAuthorExists (db : DB) (id : String) : Bool :=
  (db.authors.find? (fun a => a._id == id)).isSome

/-- The first author id of the list that fails `validateAuthorExists`: this is
where the `for … yield* Effect.fail` loops of `createBook` / `updateBook`
abort (fail-fast, request order). -/
def firstMissingAuthor (db : DB) (ids : List String) : Option String :=
  ids.find? (fun id => !validateAuthorExists db id)

/-- `bookService.updateStock` (`book-service.ts` lines 155–171): fetch the
book, compute `newStock = stock + quantity`, fail with "Insufficient stock"
when negative, else persist via partial update. -/
def updateStock (db : DB) (id : String) (quantity : Int) :
    Except String (Option Book × DB) :=
  match findBook db id with
  | none => Except.ok (none, db)
  | some currentBook =>
    let newStock := currentBook.stock + quantity
    if newStock < 0 then Except.error "Insufficient stock"
    else Except.ok (bookRepoUpdate db id { stock := some newStock })

/-- Server-side construction of the inserted book document
(`book-repository.ts`, `create`): the request fields plus a store-assigned id
(timestamps omitted). -/
def mkBook (newId : String) (req : CreateBookRequest) : Book :=
  { _id := newId
    title := req.title
    authorIds := req.authorIds
    isbn := req.isbn
    price := req.price
    stock := req.stock
    genre := req.genre
    description := req.description }

/-- `bookService.createBook` (`book-service.ts` lines 43–69): validate every
author id in request order (fail fast), then reject a duplicate ISBN by exact
equality over `findAll`, then insert.  `newId` is the store-assigned id. -/
def createBook (db : DB) (req : CreateBookRequest) (newId : String) :
    Except String (Book × DB) :=
  match firstMissingAuthor db req.authorIds with
  | some authorId => Except.error s!"Author with ID {authorId} does not exist"
  | none =>
    match db.books.find? (fun b => b.isbn == req.isbn) with
    | some _ => Except.error s!"Book with ISBN {req.isbn} already exists"
    | none =>
      let b := mkBook newId req
      Except.ok (b, { db with books := db.books ++ [b] })

/-- `bookService.updateBook` (`book-service.ts` lines 71–87): when the patch
carries `authorIds`, validate each id in order (fail fast); then delegate to
the repository's merge-patch update.  No ISBN check of any kind. -/
def updateBook (db : DB) (id : String) (p : UpdateBookRequest) :
    Except String (Option Book × DB) :=
  match (match p.authorIds with
         | some ids => firstMissingAuthor db ids
         | none => none) with
  | some authorId => Except.error s!"Author with ID {authorId} does not exist"
  | none => Except.ok (bookRepoUpdate db id p)

/-- `authorRepository.findByName` (`author-repository.ts` lines 94–108): Mongo
`$or` of case-insensitive regex matches of `name` against `firstName`,
`lastName` and `fullName`, modelled as case-insensitive substring
containment. -/
def findByName (db : DB) (name : String) : List Author :=
  db.authors.filter (fun a =>
    strIncludes (lowerStr a.firstName) (lowerStr name) ||
    strIncludes (lowerStr a.lastName) (lowerStr name) ||
    strIncludes (lowerStr a.fullName) (lowerStr name))

/-- `authorService.getAuthorsByName` (`author-service.ts` line 110):
pass-through to `findByName`. -/
def getAuthorsByName (db : DB) (name : String) : List Author :=
  findByName db name

/-- Server-side construction of the inserted author document
(`author-repository.ts`, `create`). -/
def mkAuthor (newId : String) (req : CreateAuthorRequest) : Author :=
  { _id := newId
    firstName := req.firstName
    lastName := req.lastName
    fullName := req.fullName
    biography := req.biography
    nationality := req.nationality }

/-- `authorService.createAuthor` (`author-service.ts` lines 39–57): fetch
`findByName(fullName)` candidates, scan them for an exact case-insensitive
full-name duplicate, fail on a duplicate, else insert. -/
def createAuthor (db : DB) (req : CreateAuthorRequest) (newId : String) :
    Except String (Author × DB) :=
  let existingAuthors := findByName db req.fullName
  match existingAuthors.find?
      (fun a => lowerStr a.fullName == lowerStr req.fullName) with
  | some _ =>
    Except.error s!"Author with name \"{req.fullName}\" already exists"
  | none =>
    let a := mkAuthor newId req
    Except.ok (a, { db with authors := db.authors ++ [a] })

/-- `authorRepository.findByIds` / `authorService.getAuthorsByIds`: Mongo
`$in` query — the authors (in collection order) whose id is among `ids`. -/
def getAuthorsByIds (db : DB) (ids : List String) : List Author :=
  db.authors.filter (fun a => ids.contains a._id)

/-- The title/genre test of `searchBooks` (`book-service.ts` lines 98–101):
case-insensitive substring of the query in title or genre. -/
def titleGenreMatch (q : String) (b : Book) : Bool :=
  strIncludes (lowerStr b.title) (lowerStr q) ||
  strIncludes (lowerStr b.genre) (lowerStr q)

/-- The author test of `searchBooks` (`book-service.ts` lines 110–115):
case-insensitive substring of the query in an author's first, last or full
name. -/
def authorNameMatch (q : String) (a : Author) : Bool :=
  strIncludes (lowerStr a.firstName) (lowerStr q) ||
  strIncludes (lowerStr a.lastName) (lowerStr q) ||
  strIncludes (lowerStr a.fullName) (lowerStr q)

/-- The book loop of `bookService.searchBooks` (`book-service.ts` lines
91–123): for each book push it on a title/genre match and `continue`
(skipping author resolution); otherwise resolve the book's authors and push
on any author-name match. -/
def searchBooksLoop (db : DB) (q : String) : List Book → List Book
  | [] => []
  | book :: rest =>
    if titleGenreMatch q book then book :: searchBooksLoop db q rest
    else if (getAuthorsByIds db book.authorIds).any (authorNameMatch q) then
      book :: searchBooksLoop db q rest
    else searchBooksLoop db q rest

/-- `bookService.searchBooks`: run the loop over `findAll`. -/
def searchBooks (db : DB) (q : String) : List Book :=
  searchBooksLoop db q db.books

/-- `authorService.searchAuthors` (`author-service.ts` lines 86–102): filter
of `findAll` by case-insensitive substring match on first, last or full name,
or on biography / nationality when these are present and non-empty (the
JavaScript `author.biography && …` guard short-circuits on the empty
string as well as on an absent field). -/
def searchAuthors (db : DB) (q : String) : List Author :=
  db.authors.filter (fun a =>
    strIncludes (lowerStr a.firstName) (lowerStr q) ||
    strIncludes (lowerStr a.lastName) (lowerStr q) ||
    strIncludes (lowerStr a.fullName) (lowerStr q) ||
    (a.biography.any (fun s =>
      !s.isEmpty && strIncludes (lowerStr s) (lowerStr q))) ||
    (a.nationality.any (fun s =>
      !s.isEmpty && strIncludes (lowerStr s) (lowerStr q))))

/-- `bookService.getBooksByGenre` (`book-service.ts` lines 125–134): filter of
`findAll` by exact case-insensitive equality on genre. -/
def getBooksByGenre (db : DB) (genre : String) : List Book :=
  db.books.filter (fun b => lowerStr b.genre == lowerStr genre)

/-- `bookService.getBooksByAuthor` (`book-service.ts` lines 136–153): resolve
matching authors by name, keep their (truthy, i.e. non-empty) ids, return `[]`
immediately when no id remains, else filter all books by intersection of
`authorIds` with the candidate ids. -/
def getBooksByAuthor (db : DB) (authorName : String) : List Book :=
  let matchingAuthors := getAuthorsByName db authorName
  let authorIds := (matchingAuthors.map (fun a => a._id)).filter
    (fun s => !s.isEmpty)
  if authorIds.isEmpty then []
  else db.books.filter (fun b =>
    b.authorIds.any (fun aid => authorIds.contains aid))

/-! ### Helper lemmas -/

/-- Every list occurs inside itself. -/
theorem sublistOf_self (l : List Char) : sublistOf l l = true := by
  cases l with
  | nil => rfl
  | cons c t => simp [sublistOf, List.isPrefixOf_iff_prefix]

/-- The empty pattern occurs in every list. -/
theorem sublistOf_nil (l : List Char) : sublistOf [] l = true := by
  cases l <;> simp [sublistOf, List.isPrefixOf]

/-- A string contains itself (JavaScript `s.includes(s)`). -/
theorem strIncludes_self (s : String) : strIncludes s s = true :=
  sublistOf_self s.data

/-- Replacing the found book inside the list makes the replacement the found
book, provided the replacement keeps the matching id. -/
theorem find?_setBook (id : String) (b2 : Book) (l : List Book) (b : Book)
    (h2 : (b2._id == id) = true)
    (h : l.find? (fun x => x._id == id) = some b) :
    (setBook l id b2).find? (fun x => x._id == id) = some b2 := by
  induction l with
  | nil => simp [List.find?] at h
  | cons x rest ih =>
    by_cases hx : (x._id == id) = true
    · simp [setBook, hx, List.find?, h2]
    · have hx' : (x._id == id) = false := by simpa using hx
      simp [setBook, hx', List.find?] at h ⊢
      exact ih h

/-! ### C1: updateStock -/

/-- C1.  For every book with current stock `S`, `updateStock id delta`
succeeds with persisted stock `S + delta` when `S + delta ≥ 0`, and fails
with the business-rule violation "Insufficient stock" (persisting nothing —
an `Except.error` result carries no successor state) when `S + delta < 0`. -/
theorem updateStock_correct (db : DB) (id : String) (quantity : Int)
    (b : Book) (hb : findBook db id = some b) :
    (0 ≤ b.stock + quantity →
      ∃ b2 db2, updateStock db id quantity = Except.ok (some b2, db2) ∧
        b2.stock = b.stock + quantity ∧ findBook db2 id = some b2 ∧
        db2.authors = db.authors) ∧
    (b.stock + quantity < 0 →
      updateStock db id quantity = Except.error "Insufficient stock") := by
  have hb' : db.books.find? (fun x => x._id == id) = some b := hb
  have hid : (b._id == id) = true :=
    List.find?_some (p := fun x : Book => x._id == id) hb'
  constructor
  · intro hpos
    have hlt : ¬ (b.stock + quantity < 0) := not_lt.mpr hpos
    refine ⟨applyBookPatch b { stock := some (b.stock + quantity) },
      ⟨db.authors,
        setBook db.books id (applyBookPatch b { stock := some (b.stock + quantity) })⟩,
      ?_, ?_, ?_, rfl⟩
    · simp [updateStock, hb, hlt, bookRepoUpdate]
    · simp [applyBookPatch]
    · exact find?_setBook id _ db.books b (by simpa [applyBookPatch] using hid) hb'
  · intro hneg
    simp [updateStock, hb, hneg]

/-- Witness for C1 at a concrete store: one book with stock 50, delta 10. -/
theorem updateStock_correct_witness :
    ∃ b2 db2,
      updateStock
        { authors := [{ _id := "a1", firstName := "George", lastName := "Orwell",
                        fullName := "George Orwell" }],
          books := [{ _id := "b1", title := "1984", authorIds := ["a1"],
                      isbn := "978-0452284234", price := 15, stock := 50,
                      genre := "Dystopian Fiction" }] }
        "b1" 10 = Except.ok (some b2, db2) ∧
      b2.stock = (50 : Int) + 10 ∧ findBook db2 "b1" = some b2 ∧
      db2.authors = [{ _id := "a1", firstName := "George", lastName := "Orwell",
                       fullName := "George Orwell" }] :=
  (updateStock_correct
    { authors := [{ _id := "a1", firstName := "George", lastName := "Orwell",
                    fullName := "George Orwell" }],
      books := [{ _id := "b1", title := "1984", authorIds := ["a1"],
                  isbn := "978-0452284234", price := 15, stock := 50,
                  genre := "Dystopian Fiction" }] }
    "b1" 10
    { _id := "b1", title := "1984", authorIds := ["a1"],
      isbn := "978-0452284234", price := 15, stock := 50,
      genre := "Dystopian Fiction" }
    (by decide)).1 (by decide)

/-! ### C2: the non-negative-stock invariant -/

/-- Invariant C of the spec: every book in the store has non-negative
stock. -/
def stockNonNeg (db : DB) : Prop :=
  ∀ b ∈ db.books, 0 ≤ b.stock

instance (db : DB) : Decidable (stockNonNeg db) :=
  List.decidableBAll _ db.books

/-- Every element of `setBook l id b2` is either the replacement or an
element of the original list. -/
theorem mem_setBook (l : List Book) (id : String) (b2 x : Book) :
    x ∈ setBook l id b2 → x = b2 ∨ x ∈ l := by
  induction l with
  | nil => intro h; simp [setBook] at h
  | cons y rest ih =>
    intro h
    by_cases hy : (y._id == id) = true
    · simp only [setBook, hy, if_true, List.mem_cons] at h
      rcases h with h | h
      · exact Or.inl h
      · exact Or.inr (List.mem_cons_of_mem _ h)
    · simp only [setBook, hy, Bool.false_eq_true, if_false, List.mem_cons] at h
      rcases h with h | h
      · exact Or.inr (h ▸ List.mem_cons_self y rest)
      · rcases ih h with h' | h'
        · exact Or.inl h'
        · exact Or.inr (List.mem_cons_of_mem _ h')

/-- Counterexample to C2 as stated: from a store satisfying the non-negative
stock invariant, `updateBook` with a merge-patch carrying `stock := -5`
succeeds (no stock validation exists on that path) and persists a book with
negative stock. -/
theorem stock_invariant_broken_by_updateBook :
    stockNonNeg
      { authors := [{ _id := "a1", firstName := "G", lastName := "O",
                      fullName := "G O" }],
        books := [{ _id := "b1", title := "T", authorIds := ["a1"],
                    isbn := "i1", price := 10, stock := 5, genre := "g" }] } ∧
    updateBook
      { authors := [{ _id := "a1", firstName := "G", lastName := "O",
                      fullName := "G O" }],
        books := [{ _id := "b1", title := "T", authorIds := ["a1"],
                    isbn := "i1", price := 10, stock := 5, genre := "g" }] }
      "b1" { stock := some (-5) } =
      Except.ok
        (some { _id := "b1", title := "T", authorIds := ["a1"],
                isbn := "i1", price := 10, stock := -5, genre := "g" },
         { authors := [{ _id := "a1", firstName := "G", lastName := "O",
                         fullName := "G O" }],
           books := [{ _id := "b1", title := "T", authorIds := ["a1"],
                       isbn := "i1", price := 10, stock := -5, genre := "g" }] }) ∧
    ¬ stockNonNeg
      { authors := [{ _id := "a1", firstName := "G", lastName := "O",
                      fullName := "G O" }],
        books := [{ _id := "b1", title := "T", authorIds := ["a1"],
                    isbn := "i1", price := 10, stock := -5, genre := "g" }] } :=
  ⟨by decide, by rfl, by decide⟩

/-- C2 amended: the non-negative-stock invariant is preserved by
`updateStock` (the only operation that validates stock); `createBook` and
`updateBook` perform no stock validation and can persist negative stock. -/
theorem updateStock_preserves_stockNonNeg (db : DB) (id : String)
    (quantity : Int) (r : Option Book) (db2 : DB) (hinv : stockNonNeg db)
    (h : updateStock db id quantity = Except.ok (r, db2)) :
    stockNonNeg db2 := by
  unfold updateStock at h
  cases hfb : findBook db id with
  | none =>
    rw [hfb] at h
    cases h
    exact hinv
  | some b =>
    rw [hfb] at h
    by_cases hneg : b.stock + quantity < 0
    · simp [hneg] at h
    · simp only [hneg, if_false, if_neg hneg] at h
      rw [bookRepoUpdate, hfb] at h
      cases h
      intro x hx
      rcases mem_setBook db.books id _ x hx with hx' | hx'
      · subst hx'
        simpa [applyBookPatch] using not_lt.mp hneg
      · exact hinv x hx'

/-- Witness for the amended C2 at a concrete store: stock 5, delta −3. -/
theorem updateStock_preserves_stockNonNeg_witness :
    stockNonNeg
      { authors := [],
        books := [{ _id := "b1", title := "T", authorIds := [],
                    isbn := "i1", price := 10, stock := 2, genre := "g" }] } :=
  updateStock_preserves_stockNonNeg
    { authors := [],
      books := [{ _id := "b1", title := "T", authorIds := [],
                  isbn := "i1", price := 10, stock := 5, genre := "g" }] }
    "b1" (-3)
    (some { _id := "b1", title := "T", authorIds := [],
            isbn := "i1", price := 10, stock := 2, genre := "g" })
    { authors := [],
      books := [{ _id := "b1", title := "T", authorIds := [],
                  isbn := "i1", price := 10, stock := 2, genre := "g" }] }
    (by decide) (by rfl)

/-! ### C10: updateBook has no ISBN uniqueness check -/

/-- C10.  `updateBook` never checks ISBN uniqueness: whenever the target id
exists and the patch's author ids (when present) all exist, the merge-patch
is applied and persisted unconditionally — in particular the patched ISBN is
whatever the patch says, even if another book already carries it. -/
theorem updateBook_no_isbn_check (db : DB) (id : String)
    (p : UpdateBookRequest) (b : Book) (hb : findBook db id = some b)
    (hauth : ∀ ids, p.authorIds = some ids →
      firstMissingAuthor db ids = none) :
    updateBook db id p =
      Except.ok (some (applyBookPatch b p),
        ⟨db.authors, setBook db.books id (applyBookPatch b p)⟩) ∧
    (applyBookPatch b p).isbn = p.isbn.getD b.isbn := by
  constructor
  · unfold updateBook
    cases hpa : p.authorIds with
    | none => simp [bookRepoUpdate, hb]
    | some ids => simp [hauth ids hpa, bookRepoUpdate, hb]
  · simp [applyBookPatch]

/-- Witness for C10: two books with distinct ISBNs; patching the first book's
ISBN to the second's succeeds, leaving two books with ISBN "i2" in the
persisted state spelled out in the conclusion. -/
theorem updateBook_no_isbn_check_witness :
    updateBook
      { authors := [],
        books := [{ _id := "b1", title := "T1", authorIds := [],
                    isbn := "i1", price := 10, stock := 1, genre := "g" },
                  { _id := "b2", title := "T2", authorIds := [],
                    isbn := "i2", price := 10, stock := 1, genre := "g" }] }
      "b1" { isbn := some "i2" } =
      Except.ok
        (some (applyBookPatch
          { _id := "b1", title := "T1", authorIds := [],
            isbn := "i1", price := 10, stock := 1, genre := "g" }
          { isbn := some "i2" }),
         ⟨[],
          setBook
            [{ _id := "b1", title := "T1", authorIds := [],
               isbn := "i1", price := 10, stock := 1, genre := "g" },
             { _id := "b2", title := "T2", authorIds := [],
               isbn := "i2", price := 10, stock := 1, genre := "g" }]
            "b1"
            (applyBookPatch
              { _id := "b1", title := "T1", authorIds := [],
                isbn := "i1", price := 10, stock := 1, genre := "g" }
              { isbn := some "i2" })⟩) ∧
    (applyBookPatch
      { _id := "b1", title := "T1", authorIds := [],
        isbn := "i1", price := 10, stock := 1, genre := "g" }
      { isbn := some "i2" }).isbn =
      (some "i2").getD "i1" :=
  updateBook_no_isbn_check
    { authors := [],
      books := [{ _id := "b1", title := "T1", authorIds := [],
                  isbn := "i1", price := 10, stock := 1, genre := "g" },
                { _id := "b2", title := "T2", authorIds := [],
                  isbn := "i2", price := 10, stock := 1, genre := "g" }] }
    "b1" { isbn := some "i2" }
    { _id := "b1", title := "T1", authorIds := [],
      isbn := "i1", price := 10, stock := 1, genre := "g" }
    (by decide) (fun ids h => nomatch h)

/-! ### C3: createBook fails fast on the first missing author id -/

/-- A successful `find?` splits the list at the found element, with the
predicate false on everything before it. -/
theorem find?_first {α : Type} (p : α → Bool) (l : List α) (x : α) :
    l.find? p = some x →
    ∃ pre post, l = pre ++ x :: post ∧ ∀ y ∈ pre, p y = false := by
  induction l with
  | nil => intro h; simp [List.find?] at h
  | cons a t ih =>
    intro h
    by_cases ha : p a = true
    · rw [List.find?_cons_of_pos t ha] at h
      cases h
      exact ⟨[], t, rfl, by intro y hy; simp at hy⟩
    · rw [List.find?_cons_of_neg t ha] at h
      obtain ⟨pre, post, heq, hpre⟩ := ih h
      refine ⟨a :: pre, post, by rw [heq]; rfl, ?_⟩
      intro y hy
      rcases List.mem_cons.mp hy with hy' | hy'
      · subst hy'
        exact Bool.not_eq_true _ ▸ eq_false_of_ne_true ha
      · exact hpre y hy'

/-- C3.  When a create-book request references any author id with no
corresponding author, `createBook` fails with a validation error naming the
first missing id in request order (every id before it does exist, ids after
it are never checked), and — an `Except.error` carrying no successor state —
the book collection is unchanged. -/
theorem createBook_missing_author (db : DB) (req : CreateBookRequest)
    (newId : String) (aid : String) (hmem : aid ∈ req.authorIds)
    (hmiss : validateAuthorExists db aid = false) :
    ∃ fid pre post,
      createBook db req newId =
        Except.error s!"Author with ID {fid} does not exist" ∧
      req.authorIds = pre ++ fid :: post ∧
      validateAuthorExists db fid = false ∧
      ∀ y ∈ pre, validateAuthorExists db y = true := by
  have hsome : (firstMissingAuthor db req.authorIds).isSome := by
    rw [firstMissingAuthor, List.find?_isSome]
    exact ⟨aid, hmem, by simp [hmiss]⟩
  obtain ⟨fid, hfid⟩ := Option.isSome_iff_exists.mp hsome
  obtain ⟨pre, post, heq, hpre⟩ :=
    find?_first (fun i => !validateAuthorExists db i) req.authorIds fid hfid
  refine ⟨fid, pre, post, ?_, heq, ?_, ?_⟩
  · simp [createBook, hfid]
  · have hp := List.find?_some (p := fun i : String => !validateAuthorExists db i) hfid
    simpa using hp
  · intro y hy
    have := hpre y hy
    simpa using this

/-- Witness for C3: the store knows author "a1" only; a request listing
["a1", "zz", "yy"] fails naming "zz". -/
theorem createBook_missing_author_witness :
    ∃ fid pre post,
      createBook
        { authors := [{ _id := "a1", firstName := "G", lastName := "O",
                        fullName := "G O" }], books := [] }
        { title := "T", authorIds := ["a1", "zz", "yy"], isbn := "i1",
          price := 10, stock := 1, genre := "g" }
        "b1" =
        Except.error s!"Author with ID {fid} does not exist" ∧
      ["a1", "zz", "yy"] = pre ++ fid :: post ∧
      validateAuthorExists
        { authors := [{ _id := "a1", firstName := "G", lastName := "O",
                        fullName := "G O" }], books := [] } fid = false ∧
      ∀ y ∈ pre,
        validateAuthorExists
          { authors := [{ _id := "a1", firstName := "G", lastName := "O",
                          fullName := "G O" }], books := [] } y = true :=
  createBook_missing_author
    { authors := [{ _id := "a1", firstName := "G", lastName := "O",
                    fullName := "G O" }], books := [] }
    { title := "T", authorIds := ["a1", "zz", "yy"], isbn := "i1",
      price := 10, stock := 1, genre := "g" }
    "b1" "zz" (by decide) (by decide)

/-! ### C4: createBook rejects a duplicate ISBN -/

/-- C4.  When some book in the store already carries the request's ISBN
(exact, case-sensitive equality) and every author id of the request exists,
`createBook` fails with the conflict error and persists nothing, whatever the
other request fields are. -/
theorem createBook_duplicate_isbn (db : DB) (req : CreateBookRequest)
    (newId : String)
    (hauth : ∀ aid ∈ req.authorIds, validateAuthorExists db aid = true)
    (b : Book) (hb : b ∈ db.books) (hisbn : b.isbn = req.isbn) :
    createBook db req newId =
      Except.error s!"Book with ISBN {req.isbn} already exists" := by
  have h1 : firstMissingAuthor db req.authorIds = none := by
    rw [firstMissingAuthor, List.find?_eq_none]
    intro x hx
    simp [hauth x hx]
  have h2 : (db.books.find? (fun x => x.isbn == req.isbn)).isSome :=
    List.find?_isSome.mpr ⟨b, hb, by simp [hisbn]⟩
  obtain ⟨c, hc⟩ := Option.isSome_iff_exists.mp h2
  simp [createBook, h1, hc]

/-- Witness for C4: a second book with the ISBN of the stored one, all other
fields different, is rejected. -/
theorem createBook_duplicate_isbn_witness :
    createBook
      { authors := [{ _id := "a1", firstName := "G", lastName := "O",
                      fullName := "G O" }],
        books := [{ _id := "b1", title := "T1", authorIds := ["a1"],
                    isbn := "X", price := 10, stock := 1, genre := "g" }] }
      { title := "Other", authorIds := ["a1"], isbn := "X", price := 99,
        stock := 7, genre := "h" }
      "b2" =
      Except.error s!"Book with ISBN X already exists" :=
  createBook_duplicate_isbn
    { authors := [{ _id := "a1", firstName := "G", lastName := "O",
                    fullName := "G O" }],
      books := [{ _id := "b1", title := "T1", authorIds := ["a1"],
                  isbn := "X", price := 10, stock := 1, genre := "g" }] }
    { title := "Other", authorIds := ["a1"], isbn := "X", price := 99,
      stock := 7, genre := "h" }
    "b2" (by decide)
    { _id := "b1", title := "T1", authorIds := ["a1"],
      isbn := "X", price := 10, stock := 1, genre := "g" }
    (by decide) (by decide)

/-! ### C5: createAuthor full-name uniqueness -/

/-- C5.  `createAuthor` fails with the conflict error exactly when some
stored author's full name is case-insensitively equal to the candidate's;
otherwise it appends the new author to the collection. -/
theorem createAuthor_name_uniqueness (db : DB) (req : CreateAuthorRequest)
    (newId : String) :
    ((∃ a ∈ db.authors, lowerStr a.fullName = lowerStr req.fullName) →
      createAuthor db req newId =
        Except.error s!"Author with name \"{req.fullName}\" already exists") ∧
    ((∀ a ∈ db.authors, lowerStr a.fullName ≠ lowerStr req.fullName) →
      createAuthor db req newId =
        Except.ok (mkAuthor newId req,
          ⟨db.authors ++ [mkAuthor newId req], db.books⟩)) := by
  constructor
  · rintro ⟨a, hmem, heq⟩
    have hcand : a ∈ findByName db req.fullName := by
      rw [findByName, List.mem_filter]
      refine ⟨hmem, ?_⟩
      have : strIncludes (lowerStr a.fullName) (lowerStr req.fullName) = true := by
        rw [heq]; exact strIncludes_self _
      simp [this]
    have hsome : ((findByName db req.fullName).find?
        (fun a => lowerStr a.fullName == lowerStr req.fullName)).isSome :=
      List.find?_isSome.mpr ⟨a, hcand, by simp [heq]⟩
    obtain ⟨d, hd⟩ := Option.isSome_iff_exists.mp hsome
    simp [createAuthor, hd]
  · intro hnone
    have hfind : (findByName db req.fullName).find?
        (fun a => lowerStr a.fullName == lowerStr req.fullName) = none := by
      rw [List.find?_eq_none]
      intro a ha
      have hmem : a ∈ db.authors := (List.mem_filter.mp ha).1
      simp [hnone a hmem]
    simp [createAuthor, hfind]

/-- Witness for C5 (conflict side): "george orwell" conflicts with the stored
"George Orwell". -/
theorem createAuthor_name_uniqueness_witness :
    createAuthor
      { authors := [{ _id := "a1", firstName := "George", lastName := "Orwell",
                      fullName := "George Orwell" }], books := [] }
      { firstName := "george", lastName := "orwell",
        fullName := "george orwell" }
      "a2" =
      Except.error s!"Author with name \"george orwell\" already exists" :=
  (createAuthor_name_uniqueness
    { authors := [{ _id := "a1", firstName := "George", lastName := "Orwell",
                    fullName := "George Orwell" }], books := [] }
    { firstName := "george", lastName := "orwell",
      fullName := "george orwell" }
    "a2").1 (by decide)

/-! ### C6: getBooksByAuthor -/

/-- C6.  `getBooksByAuthor` returns `[]` (succeeding, enumerating no books)
whenever `getAuthorsByName` finds no author; and — in any store whose author
ids are non-empty strings, as Mongo object ids are — it returns exactly the
books whose `authorIds` intersect the matching authors' ids. -/
theorem getBooksByAuthor_spec (db : DB) (name : String) :
    (getAuthorsByName db name = [] → getBooksByAuthor db name = []) ∧
    ((∀ a ∈ db.authors, a._id ≠ "") →
      ∀ b, b ∈ getBooksByAuthor db name ↔
        b ∈ db.books ∧ ∃ aid ∈ b.authorIds,
          ∃ a ∈ getAuthorsByName db name, a._id = aid) := by
  constructor
  · intro h
    simp [getBooksByAuthor, h]
  · intro hnn b
    have hids : ((getAuthorsByName db name).map (fun a => a._id)).filter
        (fun s => !s.isEmpty) = (getAuthorsByName db name).map (fun a => a._id) := by
      rw [List.filter_eq_self]
      intro s hs
      obtain ⟨a, ha, rfl⟩ := List.mem_map.mp hs
      have hmem : a ∈ db.authors := (List.mem_filter.mp ha).1
      have hne : ¬ (a._id.isEmpty = true) := by
        rw [String.isEmpty_iff]
        exact hnn a hmem
      simpa using hne
    by_cases hm : getAuthorsByName db name = []
    · simp [getBooksByAuthor, hm]
    · have hne : (((getAuthorsByName db name).map (fun a => a._id)).isEmpty) = false := by
        simp [List.isEmpty_iff, List.map_eq_nil_iff, hm]
      simp only [getBooksByAuthor, hids, hne, Bool.false_eq_true, if_false,
        List.mem_filter]
      simp [List.any_eq_true, List.mem_map]

/-- Witness for C6 at a concrete store: the query "orwell" matches the one
author, and the one book referencing the author's id is returned. -/
theorem getBooksByAuthor_spec_witness :
    { _id := "b1", title := "1984", authorIds := ["a1"], isbn := "i1",
      price := 10, stock := 1, genre := "g" : Book } ∈
      getBooksByAuthor
        { authors := [{ _id := "a1", firstName := "George",
                        lastName := "Orwell", fullName := "George Orwell" }],
          books := [{ _id := "b1", title := "1984", authorIds := ["a1"],
                      isbn := "i1", price := 10, stock := 1, genre := "g" }] }
        "Orwell" ↔
      { _id := "b1", title := "1984", authorIds := ["a1"], isbn := "i1",
        price := 10, stock := 1, genre := "g" : Book } ∈
        [{ _id := "b1", title := "1984", authorIds := ["a1"], isbn := "i1",
           price := 10, stock := 1, genre := "g" : Book }] ∧
      ∃ aid ∈ ["a1"],
        ∃ a ∈ getAuthorsByName
          { authors := [{ _id := "a1", firstName := "George",
                          lastName := "Orwell", fullName := "George Orwell" }],
            books := [{ _id := "b1", title := "1984", authorIds := ["a1"],
                        isbn := "i1", price := 10, stock := 1, genre := "g" }] }
          "Orwell", a._id = aid :=
  (getBooksByAuthor_spec
    { authors := [{ _id := "a1", firstName := "George", lastName := "Orwell",
                    fullName := "George Orwell" }],
      books := [{ _id := "b1", title := "1984", authorIds := ["a1"],
                  isbn := "i1", price := 10, stock := 1, genre := "g" }] }
    "Orwell").2 (by decide)
    { _id := "b1", title := "1984", authorIds := ["a1"], isbn := "i1",
      price := 10, stock := 1, genre := "g" }

/-! ### C7: searchBooks -/

/-- The search loop is extensionally the filter by "title/genre matches, or
some resolved author's name matches". -/
theorem searchBooksLoop_eq_filter (db : DB) (q : String) (l : List Book) :
    searchBooksLoop db q l = l.filter (fun b =>
      titleGenreMatch q b ||
      (getAuthorsByIds db b.authorIds).any (authorNameMatch q)) := by
  induction l with
  | nil => rfl
  | cons b rest ih =>
    by_cases h1 : titleGenreMatch q b = true
    · simp [searchBooksLoop, h1, List.filter_cons, ih]
    · by_cases h2 :
        (getAuthorsByIds db b.authorIds).any (authorNameMatch q) = true
      · simp [searchBooksLoop, h1, h2, List.filter_cons, ih]
      · simp [searchBooksLoop, h1, h2, List.filter_cons, ih]

/-- C7.  `searchBooks q` returns exactly the books whose title or genre
contains `q` case-insensitively, or — the code only reaching author
resolution when title and genre both failed — whose resolved authors include
one with `q` as a case-insensitive substring of first, last or full name. -/
theorem searchBooks_exact (db : DB) (q : String) (b : Book) :
    b ∈ searchBooks db q ↔
      b ∈ db.books ∧
        (titleGenreMatch q b = true ∨
          ∃ a ∈ getAuthorsByIds db b.authorIds, authorNameMatch q a = true) := by
  rw [searchBooks, searchBooksLoop_eq_filter, List.mem_filter]
  simp [List.any_eq_true]

/-! ### C8: searchAuthors -/

/-- Predicate written from the spec sentence for `searchAuthors`: `q` is a
case-insensitive substring of first name, last name, full name, biography or
nationality, an absent optional field simply not participating. -/
def searchAuthorsSpecPred (q : String) (a : Author) : Bool :=
  strIncludes (lowerStr a.firstName) (lowerStr q) ||
  strIncludes (lowerStr a.lastName) (lowerStr q) ||
  strIncludes (lowerStr a.fullName) (lowerStr q) ||
  a.biography.any (fun s => strIncludes (lowerStr s) (lowerStr q)) ||
  a.nationality.any (fun s => strIncludes (lowerStr s) (lowerStr q))

/-- The implementation's truthiness guard (`author.biography && …`) agrees
with the spec predicate: they can only disagree on an empty optional field
matched by an empty query, and then the required-field disjuncts are already
true. -/
theorem searchAuthors_pred_eq (q : String) (a : Author) :
    (strIncludes (lowerStr a.firstName) (lowerStr q) ||
     strIncludes (lowerStr a.lastName) (lowerStr q) ||
     strIncludes (lowerStr a.fullName) (lowerStr q) ||
     (a.biography.any (fun s =>
       !s.isEmpty && strIncludes (lowerStr s) (lowerStr q))) ||
     (a.nationality.any (fun s =>
       !s.isEmpty && strIncludes (lowerStr s) (lowerStr q)))) =
    searchAuthorsSpecPred q a := by
  by_cases hq : q.data = []
  · have h1 : strIncludes (lowerStr a.firstName) (lowerStr q) = true := by
      rw [strIncludes]
      have hql : (lowerStr q).data = [] := by simp [lowerStr, hq]
      rw [hql]
      exact sublistOf_nil _
    simp [searchAuthorsSpecPred, h1]
  · have hg : ∀ s : String,
        (!s.isEmpty && strIncludes (lowerStr s) (lowerStr q)) =
          strIncludes (lowerStr s) (lowerStr q) := by
      intro s
      by_cases hs : s.isEmpty = true
      · have hs' : s = "" := (String.isEmpty_iff s).mp hs
        subst hs'
        have hfalse : strIncludes (lowerStr "") (lowerStr q) = false := by
          rw [strIncludes]
          show sublistOf (lowerStr q).data [] = false
          rw [sublistOf]
          simp [lowerStr, List.isEmpty_iff, List.map_eq_nil_iff, hq]
        simp [hs, hfalse]
      · have hs' : s.isEmpty = false := by simpa using hs
        simp [hs']
    simp only [hg, searchAuthorsSpecPred]

/-- C8.  `searchAuthors q` returns exactly the authors for which `q` is a
case-insensitive substring of first name, last name, full name, biography or
nationality, authors lacking an optional field being excluded from that
field's comparison only. -/
theorem searchAuthors_exact (db : DB) (q : String) (a : Author) :
    a ∈ searchAuthors db q ↔
      a ∈ db.authors ∧ searchAuthorsSpecPred q a = true := by
  rw [searchAuthors, List.mem_filter]
  constructor
  · rintro ⟨h1, h2⟩
    refine ⟨h1, ?_⟩
    rw [← searchAuthors_pred_eq q a]
    exact h2
  · rintro ⟨h1, h2⟩
    refine ⟨h1, ?_⟩
    show (strIncludes (lowerStr a.firstName) (lowerStr q) ||
      strIncludes (lowerStr a.lastName) (lowerStr q) ||
      strIncludes (lowerStr a.fullName) (lowerStr q) ||
      (a.biography.any (fun s =>
        !s.isEmpty && strIncludes (lowerStr s) (lowerStr q))) ||
      (a.nationality.any (fun s =>
        !s.isEmpty && strIncludes (lowerStr s) (lowerStr q)))) = true
    rw [searchAuthors_pred_eq q a]
    exact h2

/-! ### C9: getBooksByGenre -/

/-- C9.  `getBooksByGenre g` returns exactly the books whose genre is
case-insensitively equal to `g` as a whole string; containment without
equality does not qualify. -/
theorem getBooksByGenre_exact (db : DB) (g : String) (b : Book) :
    b ∈ getBooksByGenre db g ↔
      b ∈ db.books ∧ lowerStr b.genre = lowerStr g := by
  rw [getBooksByGenre, List.mem_filter]
  simp [beq_iff_eq]

end Bookstore
